import Mathlib

/-!
Shallow embedding of the pose landmark processing pipeline of the Yoga-App
repository (file `src/utils/poseProcessing.ts`, types from
`src/types/poseTypes.ts`).

Modelling conventions:
* JavaScript numbers are idealized as exact rationals (`ℚ`) for all inputs
  and for the purely rational arithmetic of the smoother, the comparator and
  the visibility gates; the transcendental angle kernel (`Math.atan2`,
  `Math.PI`) is modelled over the reals (`ℝ`).
* A TypeScript object with optional fields (`JointAngles`) is modelled as a
  function from the field names to `Option`; an absent key is `none`.
* The JavaScript `Map` held by the smoother is modelled as a function from
  keypoint names to `Option Landmark`, updated pointwise.
* `Math.round` rounds half toward positive infinity, i.e. `⌊x + 1/2⌋`.
* Imperative loops become structural recursion or folds; the mutable
  module-level smoother singleton becomes explicit state passing.
-/

/-- The 17 keypoint names of the `KeypointName` string enum. -/
def KeypointName.NOSE : String := "nose"

def KeypointName.LEFT_EYE : String := "left_eye"

def KeypointName.RIGHT_EYE : String := "right_eye"

def KeypointName.LEFT_EAR : String := "left_ear"

def KeypointName.RIGHT_EAR : String := "right_ear"

def KeypointName.LEFT_SHOULDER : String := "left_shoulder"

def KeypointName.RIGHT_SHOULDER : String := "right_shoulder"

def KeypointName.LEFT_ELBOW : String := "left_elbow"

def KeypointName.RIGHT_ELBOW : String := "right_elbow"

def KeypointName.LEFT_WRIST : String := "left_wrist"

def KeypointName.RIGHT_WRIST : String := "right_wrist"

def KeypointName.LEFT_HIP : String := "left_hip"

def KeypointName.RIGHT_HIP : String := "right_hip"

def KeypointName.LEFT_KNEE : String := "left_knee"

def KeypointName.RIGHT_KNEE : String := "right_knee"

def KeypointName.LEFT_ANKLE : String := "left_ankle"

def KeypointName.RIGHT_ANKLE : String := "right_ankle"

/-- The full 17-name keypoint vocabulary, in enum declaration order. -/
def keypointNames : List String :=
  [KeypointName.NOSE, KeypointName.LEFT_EYE, KeypointName.RIGHT_EYE,
   KeypointName.LEFT_EAR, KeypointName.RIGHT_EAR,
   KeypointName.LEFT_SHOULDER, KeypointName.RIGHT_SHOULDER,
   KeypointName.LEFT_ELBOW, KeypointName.RIGHT_ELBOW,
   KeypointName.LEFT_WRIST, KeypointName.RIGHT_WRIST,
   KeypointName.LEFT_HIP, KeypointName.RIGHT_HIP,
   KeypointName.LEFT_KNEE, KeypointName.RIGHT_KNEE,
   KeypointName.LEFT_ANKLE, KeypointName.RIGHT_ANKLE]

/-- One detected keypoint (`interface Landmark` of `poseTypes.ts`):
name, x/y position, optional depth z, confidence and visibility flag. -/
structure Landmark where
  name : String
  x : ℚ
  y : ℚ
  z : Option ℚ := none
  confidence : ℚ
  isVisible : Bool
deriving DecidableEq

/-- A 2-d point, the structural `{x, y}` argument type of `calculateAngle`. -/
structure Pt where
  x : ℚ
  y : ℚ
deriving DecidableEq

/-- A `Landmark` used where TypeScript structurally accepts an `{x, y}`. -/
def Landmark.pt (l : Landmark) : Pt := ⟨l.x, l.y⟩

/-- The optional-field names of `interface JointAngles` in `poseTypes.ts`. -/
inductive JointKey where
  | leftShoulder | rightShoulder | leftElbow | rightElbow
  | leftWrist | rightWrist
  | leftHip | rightHip | spine
  | leftKnee | rightKnee | leftAnkle | rightAnkle
  | neck | leftArmpit | rightArmpit
deriving DecidableEq

/-- All `JointAngles` field names, in interface declaration order. -/
def jointKeys : List JointKey :=
  [.leftShoulder, .rightShoulder, .leftElbow, .rightElbow,
   .leftWrist, .rightWrist, .leftHip, .rightHip, .spine,
   .leftKnee, .rightKnee, .leftAnkle, .rightAnkle,
   .neck, .leftArmpit, .rightArmpit]

/-- `interface JointAngles`: an object whose fields are all optional, i.e.
a finite map from joint keys to numbers; `none` means the key is absent. -/
def JointAngles (α : Type) : Type := JointKey → Option α

/-- `Math.round`: round half toward positive infinity, on rationals. -/
def jsRoundQ (x : ℚ) : ℤ := ⌊x + 1/2⌋

/-- `Math.round`: round half toward positive infinity, on reals. -/
noncomputable def jsRound (x : ℝ) : ℝ := (⌊x + 1/2⌋ : ℤ)

-- ============================================================================
-- GEOMETRIC CALCULATIONS (`calculateAngle`)
-- ============================================================================

/-- `Math.atan2(y, x)`: the polar angle of the point `(x, y)`, in `(-π, π]`,
with `atan2 0 0 = 0`; this is exactly the complex argument of `x + y i`. -/
noncomputable def atan2 (y x : ℝ) : ℝ := Complex.arg ⟨x, y⟩

/-- `calculateAngle(p1, p2, p3)`: angle at vertex `p2` between the rays
toward `p1` and `p3`, as the difference of the two `atan2` polar angles,
converted to degrees, reflected into `[0, 180]`, and rounded. -/
noncomputable def calculateAngle (p1 p2 p3 : Pt) : ℝ :=
  let radians : ℝ :=
    atan2 ((p3.y : ℝ) - (p2.y : ℝ)) ((p3.x : ℝ) - (p2.x : ℝ)) -
    atan2 ((p1.y : ℝ) - (p2.y : ℝ)) ((p1.x : ℝ) - (p2.x : ℝ))
  let angle : ℝ := |radians * 180 / Real.pi|
  let angle : ℝ := if 180 < angle then 360 - angle else angle
  jsRound angle

-- ============================================================================
-- JOINT ANGLE CALCULATIONS (`calculateJointAngles`)
-- ============================================================================

/-- The local helper of `calculateJointAngles`:
`landmarks.find(l => l.name === name && l.isVisible && l.confidence > 0.5)`. -/
def getLandmark (landmarks : List Landmark) (name : String) : Option Landmark :=
  landmarks.find? fun l => l.name == name && l.isVisible && decide ((1:ℚ)/2 < l.confidence)

/-- `calculateJointAngles(landmarks)`: builds the object of joint angles.
Each conditional assignment of the source becomes the value of the
corresponding field; fields the source never assigns are always absent. -/
noncomputable def calculateJointAngles (landmarks : List Landmark) : JointAngles ℝ :=
  let leftShoulder := getLandmark landmarks KeypointName.LEFT_SHOULDER
  let leftElbow := getLandmark landmarks KeypointName.LEFT_ELBOW
  let leftWrist := getLandmark landmarks KeypointName.LEFT_WRIST
  let rightShoulder := getLandmark landmarks KeypointName.RIGHT_SHOULDER
  let rightElbow := getLandmark landmarks KeypointName.RIGHT_ELBOW
  let rightWrist := getLandmark landmarks KeypointName.RIGHT_WRIST
  let leftHip := getLandmark landmarks KeypointName.LEFT_HIP
  let rightHip := getLandmark landmarks KeypointName.RIGHT_HIP
  let leftKnee := getLandmark landmarks KeypointName.LEFT_KNEE
  let leftAnkle := getLandmark landmarks KeypointName.LEFT_ANKLE
  let rightKnee := getLandmark landmarks KeypointName.RIGHT_KNEE
  let rightAnkle := getLandmark landmarks KeypointName.RIGHT_ANKLE
  fun key =>
    match key with
    | .leftElbow =>
      match leftShoulder, leftElbow, leftWrist with
      | some s, some e, some w => some (calculateAngle s.pt e.pt w.pt)
      | _, _, _ => none
    | .rightElbow =>
      match rightShoulder, rightElbow, rightWrist with
      | some s, some e, some w => some (calculateAngle s.pt e.pt w.pt)
      | _, _, _ => none
    | .leftShoulder =>
      match leftElbow, leftShoulder, leftHip with
      | some e, some s, some h => some (calculateAngle e.pt s.pt h.pt)
      | _, _, _ => none
    | .rightShoulder =>
      match rightElbow, rightShoulder, rightHip with
      | some e, some s, some h => some (calculateAngle e.pt s.pt h.pt)
      | _, _, _ => none
    | .leftKnee =>
      match leftHip, leftKnee, leftAnkle with
      | some h, some k, some a => some (calculateAngle h.pt k.pt a.pt)
      | _, _, _ => none
    | .rightKnee =>
      match rightHip, rightKnee, rightAnkle with
      | some h, some k, some a => some (calculateAngle h.pt k.pt a.pt)
      | _, _, _ => none
    | .leftHip =>
      match leftShoulder, leftHip, leftKnee with
      | some s, some h, some k => some (calculateAngle s.pt h.pt k.pt)
      | _, _, _ => none
    | .rightHip =>
      match rightShoulder, rightHip, rightKnee with
      | some s, some h, some k => some (calculateAngle s.pt h.pt k.pt)
      | _, _, _ => none
    | .spine =>
      match leftShoulder, rightShoulder, leftHip, rightHip with
      | some ls, some rs, some lh, some rh =>
        let shoulderMid : Pt := ⟨(ls.x + rs.x) / 2, (ls.y + rs.y) / 2⟩
        let hipMid : Pt := ⟨(lh.x + rh.x) / 2, (lh.y + rh.y) / 2⟩
        let verticalRef : Pt := ⟨shoulderMid.x, 0⟩
        some (calculateAngle verticalRef shoulderMid hipMid)
      | _, _, _, _ => none
    | _ => none

/-- The joint keys `calculateJointAngles` can actually assign. -/
def computedJointKeys : List JointKey :=
  [.leftElbow, .rightElbow, .leftShoulder, .rightShoulder,
   .leftKnee, .rightKnee, .leftHip, .rightHip, .spine]

/-- The landmark names whose lookup guards the assignment of each joint key
in `calculateJointAngles` (empty for the keys the source never assigns). -/
def definingNames : JointKey → List String
  | .leftElbow => [KeypointName.LEFT_SHOULDER, KeypointName.LEFT_ELBOW, KeypointName.LEFT_WRIST]
  | .rightElbow => [KeypointName.RIGHT_SHOULDER, KeypointName.RIGHT_ELBOW, KeypointName.RIGHT_WRIST]
  | .leftShoulder => [KeypointName.LEFT_ELBOW, KeypointName.LEFT_SHOULDER, KeypointName.LEFT_HIP]
  | .rightShoulder => [KeypointName.RIGHT_ELBOW, KeypointName.RIGHT_SHOULDER, KeypointName.RIGHT_HIP]
  | .leftKnee => [KeypointName.LEFT_HIP, KeypointName.LEFT_KNEE, KeypointName.LEFT_ANKLE]
  | .rightKnee => [KeypointName.RIGHT_HIP, KeypointName.RIGHT_KNEE, KeypointName.RIGHT_ANKLE]
  | .leftHip => [KeypointName.LEFT_SHOULDER, KeypointName.LEFT_HIP, KeypointName.LEFT_KNEE]
  | .rightHip => [KeypointName.RIGHT_SHOULDER, KeypointName.RIGHT_HIP, KeypointName.RIGHT_KNEE]
  | .spine => [KeypointName.LEFT_SHOULDER, KeypointName.RIGHT_SHOULDER, KeypointName.LEFT_HIP, KeypointName.RIGHT_HIP]
  | _ => []

-- ============================================================================
-- SMOOTHING & FILTERING (`LandmarkSmoother`, `getSmoother`, `applySmoothing`)
-- ============================================================================

/-- The `Map<string, Landmark>` of previously smoothed landmarks. -/
def SmootherMap : Type := String → Option Landmark

/-- `Map.set`: point update of the previous-landmark map. -/
def SmootherMap.set (m : SmootherMap) (name : String) (l : Landmark) : SmootherMap :=
  fun n => if n = name then some l else m n

/-- The empty `Map` (freshly constructed smoother / after `clear()`). -/
def SmootherMap.empty : SmootherMap := fun _ => none

/-- The `LandmarkSmoother` class state: clamped smoothing factor `alpha`
and the per-keypoint map of previously emitted smoothed landmarks. -/
structure LandmarkSmoother where
  alpha : ℚ
  previousLandmarks : SmootherMap

/-- `new LandmarkSmoother(alpha)`: clamps `alpha` into `[0, 1]` and starts
with an empty previous-landmark map. -/
def LandmarkSmoother.create (alpha : ℚ := 1/2) : LandmarkSmoother :=
  ⟨max 0 (min 1 alpha), SmootherMap.empty⟩

/-- The exponential-moving-average blend of one landmark with its stored
previous value: geometry is blended per coordinate (z only when both the
current and the previous carry a z), all other fields pass through. -/
def smoothOne (alpha : ℚ) (previous current : Landmark) : Landmark :=
  { current with
    x := alpha * current.x + (1 - alpha) * previous.x
    y := alpha * current.y + (1 - alpha) * previous.y
    z := match current.z, previous.z with
      | some cz, some pz => some (alpha * cz + (1 - alpha) * pz)
      | _, _ => current.z }

/-- The `for` loop body of `LandmarkSmoother.smooth`, as structural
recursion over the current landmark list, threading the map state. -/
def smoothGo (alpha : ℚ) (st : SmootherMap) : List Landmark → List Landmark × SmootherMap
  | [] => ([], st)
  | current :: rest =>
    match st current.name with
    | none =>
      let res := smoothGo alpha (st.set current.name current) rest
      (current :: res.1, res.2)
    | some previous =>
      let sl := smoothOne alpha previous current
      let res := smoothGo alpha (st.set current.name sl) rest
      (sl :: res.1, res.2)

/-- `smooth(currentLandmarks)`: returns the smoothed list; the mutation of
`this.previousLandmarks` becomes the returned updated smoother. -/
def LandmarkSmoother.smooth (s : LandmarkSmoother) (currentLandmarks : List Landmark) :
    List Landmark × LandmarkSmoother :=
  let res := smoothGo s.alpha s.previousLandmarks currentLandmarks
  (res.1, ⟨s.alpha, res.2⟩)

/-- `reset()`: `this.previousLandmarks.clear()`. -/
def LandmarkSmoother.reset (s : LandmarkSmoother) : LandmarkSmoother :=
  ⟨s.alpha, SmootherMap.empty⟩

/-- The module-level mutable state of `poseProcessing.ts`:
`let smootherInstance: LandmarkSmoother | null = null;`
`let currentAlpha: number = 0.5;`. -/
structure GlobalSmootherState where
  smootherInstance : Option LandmarkSmoother
  currentAlpha : ℚ

/-- The module state at load time. -/
def GlobalSmootherState.initial : GlobalSmootherState := ⟨none, 1/2⟩

/-- `getSmoother(alpha)`: returns the singleton instance, constructing a
fresh one when there is none yet or the stored alpha differs. -/
def getSmoother (alpha : ℚ) (g : GlobalSmootherState) :
    LandmarkSmoother × GlobalSmootherState :=
  match g.smootherInstance with
  | none =>
    let s := LandmarkSmoother.create alpha
    (s, ⟨some s, alpha⟩)
  | some inst =>
    if g.currentAlpha ≠ alpha then
      let s := LandmarkSmoother.create alpha
      (s, ⟨some s, alpha⟩)
    else (inst, g)

/-- The configuration fields of `interface PoseConfig` that the processing
pipeline reads (the remaining fields are rendering options). -/
structure PoseConfig where
  minConfidence : ℚ
  targetFPS : ℚ
  enableSmoothing : Bool
  smoothingFactor : ℚ

/-- `applySmoothing(landmarks, config)`: pass-through when smoothing is
disabled, otherwise smooth with the module-level singleton smoother; the
in-place mutation of the singleton becomes the returned module state. -/
def applySmoothing (landmarks : List Landmark) (config : PoseConfig)
    (g : GlobalSmootherState) : List Landmark × GlobalSmootherState :=
  if !config.enableSmoothing then (landmarks, g)
  else
    let r := getSmoother config.smoothingFactor g
    let r2 := r.1.smooth landmarks
    (r2.1, ⟨some r2.2, r.2.currentAlpha⟩)

-- ============================================================================
-- POSE QUALITY ANALYSIS (`isPersonFullyVisible`)
-- ============================================================================

/-- The fixed `criticalPoints` list of `isPersonFullyVisible`. -/
def criticalPoints : List String :=
  [KeypointName.NOSE,
   KeypointName.LEFT_SHOULDER, KeypointName.RIGHT_SHOULDER,
   KeypointName.LEFT_HIP, KeypointName.RIGHT_HIP,
   KeypointName.LEFT_KNEE, KeypointName.RIGHT_KNEE]

/-- `isPersonFullyVisible(landmarks)`: filters the landmark list down to
visible, confident critical points and compares the count against the 70%
threshold `criticalPoints.length * 0.7`. -/
def isPersonFullyVisible (landmarks : List Landmark) : Bool :=
  let visibleCriticalPoints := landmarks.filter fun l =>
    criticalPoints.contains l.name && l.isVisible && decide ((1:ℚ)/2 < l.confidence)
  decide ((criticalPoints.length : ℚ) * (7/10) ≤ (visibleCriticalPoints.length : ℚ))

-- ============================================================================
-- POSE COMPARISON (`comparePoseAngles`)
-- ============================================================================

/-- The loop body of `comparePoseAngles`: accumulates
`(matchCount, totalCount)` over one joint key. -/
def compareStep (detectedAngles referenceAngles : JointAngles ℚ) (tolerance : ℚ)
    (acc : ℚ × ℕ) (key : JointKey) : ℚ × ℕ :=
  match referenceAngles key with
  | none => acc
  | some refAngle =>
    match detectedAngles key with
    | none => (acc.1, acc.2 + 1)
    | some detAngle =>
      let difference := |refAngle - detAngle|
      if difference ≤ tolerance then (acc.1 + 1, acc.2 + 1)
      else (acc.1 + max 0 (1 - (difference - tolerance) / tolerance), acc.2 + 1)

/-- `comparePoseAngles(detectedAngles, referenceAngles, tolerance)`:
iterates the keys present in the reference object and returns the rounded
percentage `round((matchCount / totalCount) * 100)`, or `0` when the
reference contributes no joints.  The JavaScript return value is always a
whole number, so the score is modelled as an integer. -/
def comparePoseAngles (detectedAngles referenceAngles : JointAngles ℚ)
    (tolerance : ℚ := 15) : ℤ :=
  let res := jointKeys.foldl (compareStep detectedAngles referenceAngles tolerance) (0, 0)
  if 0 < res.2 then jsRoundQ (res.1 / (res.2 : ℚ) * 100) else 0

-- ============================================================================
-- Specification-side definitions for the comparator (refinement target)
-- ============================================================================

/-- Modelled from the specification text of the comparator: the credit one
joint key earns.  A key absent from the detected map earns 0; a present key
earns 1 when the detected angle is within tolerance of the reference, and
linear credit `max 0 (1 - (diff - t)/t)` otherwise. -/
def specCredit (detected reference : JointAngles ℚ) (t : ℚ) (k : JointKey) : ℚ :=
  match reference k, detected k with
  | some r, some d => if |d - r| ≤ t then 1 else max 0 (1 - (|d - r| - t) / t)
  | _, _ => 0

/-- The joint keys present in the reference map. -/
def specRefJoints (reference : JointAngles ℚ) : List JointKey :=
  jointKeys.filter fun k => (reference k).isSome

/-- Modelled from the specification text of the comparator: the final score
is `round (100 * sumOfCredits / countOfReferenceJoints)`, and 0 when the
reference contributes no joints. -/
def comparePoseAnglesSpec (detected reference : JointAngles ℚ) (t : ℚ) : ℤ :=
  let count := (specRefJoints reference).length
  if count = 0 then 0
  else jsRoundQ (100 * ((specRefJoints reference).map (specCredit detected reference t)).sum / (count : ℚ))

/-- Every joint key is listed in `jointKeys`. -/
theorem mem_jointKeys (k : JointKey) : k ∈ jointKeys := by
  cases k <;> simp [jointKeys]

/-- The comparator fold computes the credit sum and the reference-key count. -/
theorem compare_foldl_eq (det ref : JointAngles ℚ) (t : ℚ) (l : List JointKey)
    (acc : ℚ × ℕ) :
    l.foldl (compareStep det ref t) acc =
      (acc.1 + ((l.filter fun k => (ref k).isSome).map (specCredit det ref t)).sum,
       acc.2 + (l.filter fun k => (ref k).isSome).length) := by
  induction l generalizing acc with
  | nil => simp
  | cons k l ih =>
    rcases href : ref k with _ | r
    · rw [List.foldl_cons, ih]
      simp [compareStep, href]
    · rcases hdet : det k with _ | d
      · rw [List.foldl_cons, ih]
        rw [List.filter_cons_of_pos (by simp [href])]
        simp only [compareStep, href, hdet, List.map_cons, List.sum_cons,
          List.length_cons, specCredit]
        rw [Prod.mk.injEq]
        exact ⟨by ring, by omega⟩
      · rw [List.foldl_cons, ih]
        rw [List.filter_cons_of_pos (by simp [href])]
        simp only [compareStep, href, hdet, List.map_cons, List.sum_cons,
          List.length_cons, specCredit, abs_sub_comm r d]
        by_cases hle : |d - r| ≤ t
        · simp only [if_pos hle]
          rw [Prod.mk.injEq]
          exact ⟨by ring, by omega⟩
        · simp only [if_neg hle]
          rw [Prod.mk.injEq]
          exact ⟨by ring, by omega⟩

/-- Claim C2: `comparePoseAngles` equals the specified score
`round (100 * sumOfCredits / countOfReferenceJoints)` with per-joint credits
as described (0 for a joint missing from the detected map, 1 within
tolerance, linear degradation otherwise, score 0 for an empty reference);
moreover for positive tolerance the per-joint credit reaches 0 exactly at a
difference of twice the tolerance. -/
theorem comparePoseAngles_matches_spec (det ref : JointAngles ℚ) (t : ℚ) :
    comparePoseAngles det ref t = comparePoseAnglesSpec det ref t ∧
    (0 < t → ∀ (k : JointKey) (d r : ℚ), det k = some d → ref k = some r →
      |d - r| = 2 * t → specCredit det ref t k = 0) := by
  constructor
  · simp only [comparePoseAngles, comparePoseAnglesSpec]
    rw [compare_foldl_eq]
    simp only [zero_add, specRefJoints]
    rcases Nat.eq_zero_or_pos (List.filter (fun k => (ref k).isSome) jointKeys).length with h0 | hpos
    · simp [h0]
    · rw [if_pos hpos, if_neg (Nat.pos_iff_ne_zero.mp hpos)]
      congr 1
      ring
  · intro ht k d r hdet href habs
    have htne : t ≠ 0 := ne_of_gt ht
    simp only [specCredit, href, hdet, habs]
    rw [if_neg (by nlinarith)]
    rw [show 2 * t - t = t by ring, div_self htne]
    simp

/-- A detected map and a reference map with a single common key whose angles
differ by exactly twice the default tolerance. -/
def wideKneeAngles : JointAngles ℚ := fun k => match k with
  | .leftKnee => some 120
  | _ => none

/-- A reference map holding a single knee angle. -/
def kneeAngles : JointAngles ℚ := fun k => match k with
  | .leftKnee => some 90
  | _ => none

theorem comparePoseAngles_matches_spec_witness :
    comparePoseAngles wideKneeAngles kneeAngles 15 = comparePoseAnglesSpec wideKneeAngles kneeAngles 15 ∧
    specCredit wideKneeAngles kneeAngles 15 JointKey.leftKnee = 0 :=
  ⟨(comparePoseAngles_matches_spec wideKneeAngles kneeAngles 15).1,
   (comparePoseAngles_matches_spec wideKneeAngles kneeAngles 15).2 (by norm_num)
     JointKey.leftKnee 120 90 rfl rfl (by norm_num)⟩

/-- Claim C4 counterexample: comparing the empty angle map against itself
yields score 0, not 100 — the claim fails for the empty `JointAngles` map. -/
theorem comparePoseAngles_self_empty_zero :
    comparePoseAngles (fun _ => none) (fun _ => none) 15 = 0 ∧ (0 : ℤ) ≠ 100 := by
  constructor
  · simp [comparePoseAngles, compareStep, jointKeys]
  · decide

/-- Claim C4 (amended): for every angle map with at least one key present,
comparing the map against itself at tolerance 15 yields score 100. -/
theorem comparePoseAngles_self_hundred (a : JointAngles ℚ)
    (h : ∃ k, (a k).isSome) : comparePoseAngles a a 15 = 100 := by
  obtain ⟨k, hk⟩ := h
  simp only [comparePoseAngles]
  rw [compare_foldl_eq]
  have hmem : k ∈ jointKeys.filter fun k => (a k).isSome := by
    rw [List.mem_filter]
    exact ⟨mem_jointKeys k, hk⟩
  have hpos : 0 < (jointKeys.filter fun k => (a k).isSome).length :=
    List.length_pos.mpr (List.ne_nil_of_mem hmem)
  have hcredit : ∀ j ∈ jointKeys.filter fun k => (a k).isSome,
      specCredit a a 15 j = 1 := by
    intro j hj
    rw [List.mem_filter] at hj
    rcases hja : a j with _ | v
    · rw [hja] at hj
      simp at hj
    · simp [specCredit, hja]
  rw [List.map_congr_left hcredit]
  simp only [zero_add]
  rw [if_pos hpos]
  have hsum : (List.map (fun _ => (1:ℚ)) (jointKeys.filter fun k => (a k).isSome)).sum
      = ((jointKeys.filter fun k => (a k).isSome).length : ℚ) := by
    rw [List.map_const']
    rw [List.sum_replicate]
    simp
  rw [hsum, div_self (Nat.cast_ne_zero.mpr (Nat.pos_iff_ne_zero.mp hpos))]
  norm_num [jsRoundQ]

theorem comparePoseAngles_self_hundred_witness :
    comparePoseAngles kneeAngles kneeAngles 15 = 100 :=
  comparePoseAngles_self_hundred kneeAngles ⟨JointKey.leftKnee, rfl⟩

-- ============================================================================
-- Visibility gate (C7)
-- ============================================================================

/-- Modelled from the specification text of the visibility gate: the number
of distinct critical points for which the landmark list holds a visible,
confident entry. -/
def qualifyingCriticalCount (landmarks : List Landmark) : ℕ :=
  (criticalPoints.filter fun c =>
    landmarks.any fun l => l.name == c && l.isVisible && decide ((1:ℚ)/2 < l.confidence)).length

/-- The 70% threshold over 7 critical points means at least 5 of them. -/
theorem seven_tenths_le_iff (n : ℕ) :
    ((criticalPoints.length : ℚ) * (7/10) ≤ (n:ℚ)) ↔ 5 ≤ n := by
  have h7 : (criticalPoints.length : ℚ) = 7 := by simp [criticalPoints]
  rw [h7, show (7:ℚ) * (7/10) = 49/10 by norm_num,
    div_le_iff₀ (by norm_num : (0:ℚ) < 10)]
  constructor
  · intro h
    have h2 : (49:ℕ) ≤ n * 10 := by exact_mod_cast h
    omega
  · intro h
    have h2 : (49:ℕ) ≤ n * 10 := by omega
    exact_mod_cast h2

/-- With at most one entry per keypoint name, the per-entry count used by
`isPersonFullyVisible` equals the per-critical-point count. -/
theorem qualifying_count_eq (landmarks : List Landmark)
    (h : (landmarks.map Landmark.name).Nodup) :
    (landmarks.filter fun l =>
        criticalPoints.contains l.name && l.isVisible && decide ((1:ℚ)/2 < l.confidence)).length
      = qualifyingCriticalCount landmarks := by
  have hA : ((landmarks.filter fun l =>
      criticalPoints.contains l.name && l.isVisible && decide ((1:ℚ)/2 < l.confidence)).map
        Landmark.name).Nodup :=
    List.Nodup.sublist ((landmarks.filter_sublist).map Landmark.name) h
  have hBnodup : criticalPoints.Nodup := by decide
  have hB : (criticalPoints.filter fun c =>
      landmarks.any fun l => l.name == c && l.isVisible && decide ((1:ℚ)/2 < l.confidence)).Nodup :=
    hBnodup.filter _
  have hmem : ∀ s,
      s ∈ (landmarks.filter fun l =>
        criticalPoints.contains l.name && l.isVisible && decide ((1:ℚ)/2 < l.confidence)).map
          Landmark.name ↔
      s ∈ criticalPoints.filter fun c =>
        landmarks.any fun l => l.name == c && l.isVisible && decide ((1:ℚ)/2 < l.confidence) := by
    intro s
    simp only [List.mem_map, List.mem_filter, List.any_eq_true, Bool.and_eq_true,
      beq_iff_eq, decide_eq_true_eq, List.elem_iff]
    constructor
    · rintro ⟨l, ⟨hl, ⟨hcrit, hvis⟩, hconf⟩, rfl⟩
      exact ⟨hcrit, l, hl, ⟨rfl, hvis⟩, hconf⟩
    · rintro ⟨hs, l, hl, ⟨hname, hvis⟩, hconf⟩
      exact ⟨l, ⟨hl, ⟨hname ▸ hs, hvis⟩, hconf⟩, hname⟩
  have hperm := (List.perm_ext_iff_of_nodup hA hB).mpr hmem
  have hlen := hperm.length_eq
  rw [List.length_map] at hlen
  exact hlen

/-- Claim C7 (amended): for landmark lists with at most one entry per
keypoint name, `isPersonFullyVisible` is true exactly when at least 5 of
the 7 critical points have a present, visible entry above the confidence
floor. -/
theorem isPersonFullyVisible_iff_five_of_seven (landmarks : List Landmark)
    (h : (landmarks.map Landmark.name).Nodup) :
    isPersonFullyVisible landmarks = true ↔ 5 ≤ qualifyingCriticalCount landmarks := by
  simp only [isPersonFullyVisible, decide_eq_true_eq]
  rw [seven_tenths_le_iff, qualifying_count_eq landmarks h]

/-- Five distinct qualifying critical points (nose, shoulders, hips). -/
def fiveCriticalLandmarks : List Landmark :=
  [{ name := "nose", x := 50, y := 10, confidence := 9/10, isVisible := true },
   { name := "left_shoulder", x := 35, y := 25, confidence := 9/10, isVisible := true },
   { name := "right_shoulder", x := 65, y := 25, confidence := 9/10, isVisible := true },
   { name := "left_hip", x := 40, y := 55, confidence := 9/10, isVisible := true },
   { name := "right_hip", x := 60, y := 55, confidence := 9/10, isVisible := true }]

theorem isPersonFullyVisible_iff_five_of_seven_witness :
    isPersonFullyVisible fiveCriticalLandmarks = true :=
  (isPersonFullyVisible_iff_five_of_seven fiveCriticalLandmarks (by decide)).mpr (by
    simp +decide [qualifyingCriticalCount, fiveCriticalLandmarks, criticalPoints,
      KeypointName.NOSE, KeypointName.LEFT_SHOULDER, KeypointName.RIGHT_SHOULDER,
      KeypointName.LEFT_HIP, KeypointName.RIGHT_HIP, KeypointName.LEFT_KNEE,
      KeypointName.RIGHT_KNEE, List.any, List.filter]
    norm_num)

/-- Five duplicate nose entries, all visible and confident. -/
def fiveNoseLandmarks : List Landmark :=
  [{ name := "nose", x := 10, y := 10, confidence := 9/10, isVisible := true },
   { name := "nose", x := 20, y := 10, confidence := 9/10, isVisible := true },
   { name := "nose", x := 30, y := 10, confidence := 9/10, isVisible := true },
   { name := "nose", x := 40, y := 10, confidence := 9/10, isVisible := true },
   { name := "nose", x := 50, y := 10, confidence := 9/10, isVisible := true }]

/-- Claim C7 counterexample: with five duplicate nose entries the function
answers true although only 1 of the 7 critical points is present — the
filter counts list entries, not distinct critical points. -/
theorem isPersonFullyVisible_duplicate_noses :
    isPersonFullyVisible fiveNoseLandmarks = true ∧
    qualifyingCriticalCount fiveNoseLandmarks = 1 := by
  constructor
  · simp +decide [isPersonFullyVisible, fiveNoseLandmarks, criticalPoints,
      KeypointName.NOSE, KeypointName.LEFT_SHOULDER, KeypointName.RIGHT_SHOULDER,
      KeypointName.LEFT_HIP, KeypointName.RIGHT_HIP, KeypointName.LEFT_KNEE,
      KeypointName.RIGHT_KNEE, List.filter]
    norm_num
  · simp +decide [qualifyingCriticalCount, fiveNoseLandmarks, criticalPoints,
      KeypointName.NOSE, KeypointName.LEFT_SHOULDER, KeypointName.RIGHT_SHOULDER,
      KeypointName.LEFT_HIP, KeypointName.RIGHT_HIP, KeypointName.LEFT_KNEE,
      KeypointName.RIGHT_KNEE, List.any, List.filter]
    norm_num

-- ============================================================================
-- Joint-key presence characterization (shared by the angle-map claims)
-- ============================================================================

/-- A joint key is present in the result of `calculateJointAngles` exactly
when it is one of the computed keys and every landmark lookup guarding its
assignment succeeds. -/
theorem calculateJointAngles_isSome_iff (landmarks : List Landmark) (j : JointKey) :
    (calculateJointAngles landmarks j).isSome = true ↔
      (j ∈ computedJointKeys ∧ ∀ n ∈ definingNames j, (getLandmark landmarks n).isSome = true) := by
  cases j with
  | leftElbow =>
    simp only [calculateJointAngles]
    cases hA : getLandmark landmarks KeypointName.LEFT_SHOULDER <;>
      cases hB : getLandmark landmarks KeypointName.LEFT_ELBOW <;>
        cases hC : getLandmark landmarks KeypointName.LEFT_WRIST <;>
          simp_all [definingNames, computedJointKeys]
  | rightElbow =>
    simp only [calculateJointAngles]
    cases hA : getLandmark landmarks KeypointName.RIGHT_SHOULDER <;>
      cases hB : getLandmark landmarks KeypointName.RIGHT_ELBOW <;>
        cases hC : getLandmark landmarks KeypointName.RIGHT_WRIST <;>
          simp_all [definingNames, computedJointKeys]
  | leftShoulder =>
    simp only [calculateJointAngles]
    cases hA : getLandmark landmarks KeypointName.LEFT_ELBOW <;>
      cases hB : getLandmark landmarks KeypointName.LEFT_SHOULDER <;>
        cases hC : getLandmark landmarks KeypointName.LEFT_HIP <;>
          simp_all [definingNames, computedJointKeys]
  | rightShoulder =>
    simp only [calculateJointAngles]
    cases hA : getLandmark landmarks KeypointName.RIGHT_ELBOW <;>
      cases hB : getLandmark landmarks KeypointName.RIGHT_SHOULDER <;>
        cases hC : getLandmark landmarks KeypointName.RIGHT_HIP <;>
          simp_all [definingNames, computedJointKeys]
  | leftKnee =>
    simp only [calculateJointAngles]
    cases hA : getLandmark landmarks KeypointName.LEFT_HIP <;>
      cases hB : getLandmark landmarks KeypointName.LEFT_KNEE <;>
        cases hC : getLandmark landmarks KeypointName.LEFT_ANKLE <;>
          simp_all [definingNames, computedJointKeys]
  | rightKnee =>
    simp only [calculateJointAngles]
    cases hA : getLandmark landmarks KeypointName.RIGHT_HIP <;>
      cases hB : getLandmark landmarks KeypointName.RIGHT_KNEE <;>
        cases hC : getLandmark landmarks KeypointName.RIGHT_ANKLE <;>
          simp_all [definingNames, computedJointKeys]
  | leftHip =>
    simp only [calculateJointAngles]
    cases hA : getLandmark landmarks KeypointName.LEFT_SHOULDER <;>
      cases hB : getLandmark landmarks KeypointName.LEFT_HIP <;>
        cases hC : getLandmark landmarks KeypointName.LEFT_KNEE <;>
          simp_all [definingNames, computedJointKeys]
  | rightHip =>
    simp only [calculateJointAngles]
    cases hA : getLandmark landmarks KeypointName.RIGHT_SHOULDER <;>
      cases hB : getLandmark landmarks KeypointName.RIGHT_HIP <;>
        cases hC : getLandmark landmarks KeypointName.RIGHT_KNEE <;>
          simp_all [definingNames, computedJointKeys]
  | spine =>
    simp only [calculateJointAngles]
    cases hA : getLandmark landmarks KeypointName.LEFT_SHOULDER <;>
      cases hB : getLandmark landmarks KeypointName.RIGHT_SHOULDER <;>
        cases hC : getLandmark landmarks KeypointName.LEFT_HIP <;>
          cases hD : getLandmark landmarks KeypointName.RIGHT_HIP <;>
            simp_all [definingNames, computedJointKeys]
  | leftWrist => simp [calculateJointAngles, definingNames, computedJointKeys]
  | rightWrist => simp [calculateJointAngles, definingNames, computedJointKeys]
  | leftAnkle => simp [calculateJointAngles, definingNames, computedJointKeys]
  | rightAnkle => simp [calculateJointAngles, definingNames, computedJointKeys]
  | neck => simp [calculateJointAngles, definingNames, computedJointKeys]
  | leftArmpit => simp [calculateJointAngles, definingNames, computedJointKeys]
  | rightArmpit => simp [calculateJointAngles, definingNames, computedJointKeys]

/-- Claim C6: if every entry carrying one of the defining landmark names of
a joint is invisible or at/below the 0.5 confidence floor (in particular
when the name is missing from the list entirely), that joint key is absent
from the result of `calculateJointAngles`; the function is total, so no
exception can be raised. -/
theorem calculateJointAngles_absent_of_unqualified (landmarks : List Landmark)
    (j : JointKey) (name : String) (hmem : name ∈ definingNames j)
    (hfail : ∀ l ∈ landmarks, l.name = name → l.isVisible = false ∨ l.confidence ≤ (1:ℚ)/2) :
    calculateJointAngles landmarks j = none := by
  have hget : getLandmark landmarks name = none := by
    rw [getLandmark, List.find?_eq_none]
    intro l hl hcond
    rw [Bool.and_eq_true, Bool.and_eq_true] at hcond
    obtain ⟨⟨hn, hv⟩, hc⟩ := hcond
    rw [beq_iff_eq] at hn
    rw [decide_eq_true_eq] at hc
    rcases hfail l hl hn with h | h
    · rw [h] at hv
      exact Bool.false_ne_true hv
    · exact absurd hc (not_lt.mpr h)
  rcases hres : calculateJointAngles landmarks j with _ | v
  · rfl
  · exfalso
    have hsome : (calculateJointAngles landmarks j).isSome = true := by
      rw [hres]
      rfl
    obtain ⟨-, hall⟩ := (calculateJointAngles_isSome_iff landmarks j).mp hsome
    have hn := hall name hmem
    rw [hget] at hn
    exact Bool.false_ne_true hn

/-- Arm landmarks whose elbow entry has confidence 0.4. -/
def lowConfidenceArm : List Landmark :=
  [{ name := "left_shoulder", x := 35, y := 25, confidence := 9/10, isVisible := true },
   { name := "left_elbow", x := 30, y := 40, confidence := 2/5, isVisible := true },
   { name := "left_wrist", x := 25, y := 55, confidence := 9/10, isVisible := true }]

theorem calculateJointAngles_absent_of_unqualified_witness :
    calculateJointAngles lowConfidenceArm JointKey.leftElbow = none :=
  calculateJointAngles_absent_of_unqualified lowConfidenceArm JointKey.leftElbow
    KeypointName.LEFT_ELBOW (by decide)
    (by
      intro l hl hn
      fin_cases hl <;> simp_all [KeypointName.LEFT_ELBOW] <;> norm_num)

/-- The find-based lookup succeeds exactly when some entry carries the name,
is visible and sits above the confidence floor. -/
theorem getLandmark_isSome_iff (landmarks : List Landmark) (n : String) :
    (getLandmark landmarks n).isSome = true ↔
      ∃ l ∈ landmarks, l.name = n ∧ l.isVisible = true ∧ (1:ℚ)/2 < l.confidence := by
  rw [getLandmark, List.find?_isSome]
  simp only [Bool.and_eq_true, beq_iff_eq, decide_eq_true_eq]
  constructor
  · rintro ⟨l, hl, ⟨hn, hv⟩, hc⟩
    exact ⟨l, hl, hn, hv, hc⟩
  · rintro ⟨l, hl, hn, hv, hc⟩
    exact ⟨l, hl, ⟨hn, hv⟩, hc⟩

/-- Claim C1 (amended): when all 17 keypoints are present, visible and
above the confidence floor, the computed map holds exactly the nine keys
the source assigns — both elbows, shoulders, knees, hips and the spine; the
wrist, ankle and neck keys are never produced. -/
theorem calculateJointAngles_keys_of_all_visible (landmarks : List Landmark)
    (hall : ∀ n ∈ keypointNames, ∃ l ∈ landmarks,
      l.name = n ∧ l.isVisible = true ∧ (1:ℚ)/2 < l.confidence) :
    ∀ k : JointKey, ((calculateJointAngles landmarks k).isSome = true ↔ k ∈ computedJointKeys) := by
  intro k
  rw [calculateJointAngles_isSome_iff]
  have hsub : ∀ n ∈ definingNames k, n ∈ keypointNames := by
    cases k <;> decide
  constructor
  · rintro ⟨hk, -⟩
    exact hk
  · intro hk
    refine ⟨hk, fun n hn => ?_⟩
    rw [getLandmark_isSome_iff]
    exact hall n (hsub n hn)

/-- A complete, confident, visible 17-keypoint pose in generic position. -/
def fullPose : List Landmark :=
  [{ name := "nose", x := 50, y := 10, confidence := 9/10, isVisible := true },
   { name := "left_eye", x := 45, y := 8, confidence := 9/10, isVisible := true },
   { name := "right_eye", x := 55, y := 8, confidence := 9/10, isVisible := true },
   { name := "left_ear", x := 40, y := 10, confidence := 9/10, isVisible := true },
   { name := "right_ear", x := 60, y := 10, confidence := 9/10, isVisible := true },
   { name := "left_shoulder", x := 35, y := 25, confidence := 9/10, isVisible := true },
   { name := "right_shoulder", x := 65, y := 25, confidence := 9/10, isVisible := true },
   { name := "left_elbow", x := 30, y := 40, confidence := 9/10, isVisible := true },
   { name := "right_elbow", x := 70, y := 40, confidence := 9/10, isVisible := true },
   { name := "left_wrist", x := 25, y := 55, confidence := 9/10, isVisible := true },
   { name := "right_wrist", x := 75, y := 55, confidence := 9/10, isVisible := true },
   { name := "left_hip", x := 40, y := 55, confidence := 9/10, isVisible := true },
   { name := "right_hip", x := 60, y := 55, confidence := 9/10, isVisible := true },
   { name := "left_knee", x := 40, y := 75, confidence := 9/10, isVisible := true },
   { name := "right_knee", x := 60, y := 75, confidence := 9/10, isVisible := true },
   { name := "left_ankle", x := 40, y := 95, confidence := 9/10, isVisible := true },
   { name := "right_ankle", x := 60, y := 95, confidence := 9/10, isVisible := true }]

/-- Every keypoint of `fullPose` is present, visible and confident. -/
theorem fullPose_all_visible : ∀ n ∈ keypointNames, ∃ l ∈ fullPose,
    l.name = n ∧ l.isVisible = true ∧ (1:ℚ)/2 < l.confidence := by
  intro n hn
  simp only [keypointNames, KeypointName.NOSE, KeypointName.LEFT_EYE, KeypointName.RIGHT_EYE,
    KeypointName.LEFT_EAR, KeypointName.RIGHT_EAR, KeypointName.LEFT_SHOULDER,
    KeypointName.RIGHT_SHOULDER, KeypointName.LEFT_ELBOW, KeypointName.RIGHT_ELBOW,
    KeypointName.LEFT_WRIST, KeypointName.RIGHT_WRIST, KeypointName.LEFT_HIP,
    KeypointName.RIGHT_HIP, KeypointName.LEFT_KNEE, KeypointName.RIGHT_KNEE,
    KeypointName.LEFT_ANKLE, KeypointName.RIGHT_ANKLE] at hn
  fin_cases hn <;>
    · simp only [fullPose, List.exists_mem_cons_iff, List.not_mem_nil]
      norm_num

/-- Claim C1 counterexample: for a fully visible, confident, non-degenerate
17-keypoint pose the returned map still lacks the left wrist key — the
source never assigns wrist, ankle or neck angles. -/
theorem calculateJointAngles_fullPose_leftWrist_none :
    (∀ n ∈ keypointNames, ∃ l ∈ fullPose,
      l.name = n ∧ l.isVisible = true ∧ (1:ℚ)/2 < l.confidence) ∧
    calculateJointAngles fullPose JointKey.leftWrist = none :=
  ⟨fullPose_all_visible, rfl⟩

theorem calculateJointAngles_keys_of_all_visible_witness :
    (calculateJointAngles fullPose JointKey.leftElbow).isSome = true ↔
      JointKey.leftElbow ∈ computedJointKeys :=
  calculateJointAngles_keys_of_all_visible fullPose fullPose_all_visible JointKey.leftElbow

-- ============================================================================
-- Smoother lemmas (C3, C5)
-- ============================================================================

/-- Processing a frame leaves the stored value of any name that does not
occur in the frame untouched. -/
theorem smoothGo_state_of_not_mem (alpha : ℚ) (st : SmootherMap) (L : List Landmark)
    (n : String) (hn : n ∉ L.map Landmark.name) : (smoothGo alpha st L).2 n = st n := by
  induction L generalizing st with
  | nil => rfl
  | cons head rest ih =>
    simp only [List.map_cons, List.mem_cons, not_or] at hn
    obtain ⟨hne, hrest⟩ := hn
    cases hcur : st head.name with
    | none =>
      simp only [smoothGo, hcur]
      rw [ih _ hrest]
      simp [SmootherMap.set, hne]
    | some previous =>
      simp only [smoothGo, hcur]
      rw [ih _ hrest]
      simp [SmootherMap.set, hne]

/-- A keypoint with a stored previous value is emitted as its EMA blend,
and the blend becomes the stored value. -/
theorem smoothGo_ema (alpha : ℚ) (st : SmootherMap) (L : List Landmark)
    (hnd : (L.map Landmark.name).Nodup) (cur : Landmark) (hcur : cur ∈ L)
    (prev : Landmark) (hprev : st cur.name = some prev) :
    smoothOne alpha prev cur ∈ (smoothGo alpha st L).1 ∧
    (smoothGo alpha st L).2 cur.name = some (smoothOne alpha prev cur) := by
  induction L generalizing st with
  | nil => cases hcur
  | cons head rest ih =>
    simp only [List.map_cons, List.nodup_cons] at hnd
    obtain ⟨hhead, hndr⟩ := hnd
    rcases List.mem_cons.mp hcur with rfl | hmem
    · simp only [smoothGo, hprev]
      refine ⟨List.mem_cons_self _ _, ?_⟩
      rw [smoothGo_state_of_not_mem _ _ _ _ hhead]
      simp [SmootherMap.set]
    · have hne : cur.name ≠ head.name := by
        intro h
        exact hhead (h ▸ List.mem_map_of_mem Landmark.name hmem)
      cases hh : st head.name with
      | none =>
        simp only [smoothGo, hh]
        have hprev2 : (st.set head.name head) cur.name = some prev := by
          rw [SmootherMap.set, if_neg hne]
          exact hprev
        obtain ⟨h1, h2⟩ := ih _ hndr hmem hprev2
        exact ⟨List.mem_cons_of_mem _ h1, h2⟩
      | some previous =>
        simp only [smoothGo, hh]
        have hprev2 : (st.set head.name (smoothOne alpha previous head)) cur.name = some prev := by
          rw [SmootherMap.set, if_neg hne]
          exact hprev
        obtain ⟨h1, h2⟩ := ih _ hndr hmem hprev2
        exact ⟨List.mem_cons_of_mem _ h1, h2⟩

/-- A keypoint with no stored previous value passes through unchanged and
becomes the stored value. -/
theorem smoothGo_first (alpha : ℚ) (st : SmootherMap) (L : List Landmark)
    (hnd : (L.map Landmark.name).Nodup) (cur : Landmark) (hcur : cur ∈ L)
    (hnone : st cur.name = none) :
    cur ∈ (smoothGo alpha st L).1 ∧ (smoothGo alpha st L).2 cur.name = some cur := by
  induction L generalizing st with
  | nil => cases hcur
  | cons head rest ih =>
    simp only [List.map_cons, List.nodup_cons] at hnd
    obtain ⟨hhead, hndr⟩ := hnd
    rcases List.mem_cons.mp hcur with rfl | hmem
    · simp only [smoothGo, hnone]
      refine ⟨List.mem_cons_self _ _, ?_⟩
      rw [smoothGo_state_of_not_mem _ _ _ _ hhead]
      simp [SmootherMap.set]
    · have hne : cur.name ≠ head.name := by
        intro h
        exact hhead (h ▸ List.mem_map_of_mem Landmark.name hmem)
      cases hh : st head.name with
      | none =>
        simp only [smoothGo, hh]
        have hnone2 : (st.set head.name head) cur.name = none := by
          rw [SmootherMap.set, if_neg hne]
          exact hnone
        obtain ⟨h1, h2⟩ := ih _ hndr hmem hnone2
        exact ⟨List.mem_cons_of_mem _ h1, h2⟩
      | some previous =>
        simp only [smoothGo, hh]
        have hnone2 : (st.set head.name (smoothOne alpha previous head)) cur.name = none := by
          rw [SmootherMap.set, if_neg hne]
          exact hnone
        obtain ⟨h1, h2⟩ := ih _ hndr hmem hnone2
        exact ⟨List.mem_cons_of_mem _ h1, h2⟩

/-- A frame processed against a state empty on all its names passes
through wholesale. -/
theorem smoothGo_passthrough (alpha : ℚ) (st : SmootherMap) (L : List Landmark)
    (hnd : (L.map Landmark.name).Nodup) (hempty : ∀ l ∈ L, st l.name = none) :
    (smoothGo alpha st L).1 = L := by
  induction L generalizing st with
  | nil => rfl
  | cons head rest ih =>
    simp only [List.map_cons, List.nodup_cons] at hnd
    obtain ⟨hhead, hndr⟩ := hnd
    have hh : st head.name = none := hempty head (List.mem_cons_self _ _)
    simp only [smoothGo, hh, List.cons.injEq, true_and]
    apply ih _ hndr
    intro l hl
    have hne : l.name ≠ head.name := by
      intro h
      exact hhead (h ▸ List.mem_map_of_mem Landmark.name hl)
    rw [SmootherMap.set, if_neg hne]
    exact hempty l (List.mem_cons_of_mem _ hl)

/-- Claim C3: for a keypoint with a stored previous value, one `smooth`
call emits the blend `alpha * raw + (1 - alpha) * previousSmoothed`
computed independently per coordinate (z only when both frames carry it),
passes name, confidence and visibility through unchanged, and
unconditionally stores the blend as the new previous value for that name. -/
theorem smooth_ema_of_stored_prev (s : LandmarkSmoother) (L : List Landmark)
    (hnd : (L.map Landmark.name).Nodup) (cur : Landmark) (hcur : cur ∈ L)
    (prev : Landmark) (hprev : s.previousLandmarks cur.name = some prev) :
    (smoothOne s.alpha prev cur).x = s.alpha * cur.x + (1 - s.alpha) * prev.x ∧
    (smoothOne s.alpha prev cur).y = s.alpha * cur.y + (1 - s.alpha) * prev.y ∧
    (∀ cz pz, cur.z = some cz → prev.z = some pz →
      (smoothOne s.alpha prev cur).z = some (s.alpha * cz + (1 - s.alpha) * pz)) ∧
    (smoothOne s.alpha prev cur).name = cur.name ∧
    (smoothOne s.alpha prev cur).confidence = cur.confidence ∧
    (smoothOne s.alpha prev cur).isVisible = cur.isVisible ∧
    smoothOne s.alpha prev cur ∈ (s.smooth L).1 ∧
    (s.smooth L).2.previousLandmarks cur.name = some (smoothOne s.alpha prev cur) := by
  obtain ⟨h1, h2⟩ := smoothGo_ema s.alpha s.previousLandmarks L hnd cur hcur prev hprev
  refine ⟨rfl, rfl, ?_, rfl, rfl, rfl, h1, h2⟩
  intro cz pz hcz hpz
  simp [smoothOne, hcz, hpz]

/-- A stored previous nose position carrying a depth value. -/
def prevNose : Landmark :=
  { name := "nose", x := 10, y := 20, z := some 1, confidence := 8/10, isVisible := true }

/-- The current raw nose frame, also carrying a depth value. -/
def curNose : Landmark :=
  { name := "nose", x := 14, y := 24, z := some 3, confidence := 9/10, isVisible := true }

/-- A smoother whose state already stores a previous nose value. -/
def storedSmoother : LandmarkSmoother :=
  ⟨1/2, SmootherMap.empty.set "nose" prevNose⟩

theorem smooth_ema_of_stored_prev_witness :
    (smoothOne ((1:ℚ)/2) prevNose curNose).x = (1/2) * curNose.x + (1 - (1/2)) * prevNose.x ∧
    (smoothOne ((1:ℚ)/2) prevNose curNose).name = curNose.name ∧
    (smoothOne ((1:ℚ)/2) prevNose curNose).z = some ((1/2) * 3 + (1 - (1/2)) * 1) ∧
    smoothOne ((1:ℚ)/2) prevNose curNose ∈ (storedSmoother.smooth [curNose]).1 ∧
    (storedSmoother.smooth [curNose]).2.previousLandmarks curNose.name =
      some (smoothOne ((1:ℚ)/2) prevNose curNose) := by
  obtain ⟨hx, hy, hz, hn, hc, hv, hm, hs⟩ :=
    smooth_ema_of_stored_prev storedSmoother [curNose] (by simp) curNose (by simp)
      prevNose (by simp [storedSmoother, SmootherMap.set, curNose])
  exact ⟨hx, hn, hz 3 1 rfl rfl, hm, hs⟩

/-- Claim C5: `reset` clears the stored value of every keypoint name; a
frame smoothed after a reset passes through unchanged; and any keypoint
with no stored previous value is emitted exactly as its raw input, which
then becomes its stored value. -/
theorem smooth_first_sighting_and_reset (s : LandmarkSmoother) (L : List Landmark)
    (hnd : (L.map Landmark.name).Nodup) :
    (∀ n, (s.reset).previousLandmarks n = none) ∧
    ((s.reset).smooth L).1 = L ∧
    (∀ cur ∈ L, s.previousLandmarks cur.name = none →
      cur ∈ (s.smooth L).1 ∧ (s.smooth L).2.previousLandmarks cur.name = some cur) := by
  refine ⟨fun n => rfl, ?_, ?_⟩
  · exact smoothGo_passthrough s.alpha SmootherMap.empty L hnd (fun l _ => rfl)
  · intro cur hcur hnone
    exact smoothGo_first s.alpha s.previousLandmarks L hnd cur hcur hnone

theorem smooth_first_sighting_and_reset_witness :
    (storedSmoother.reset).previousLandmarks "nose" = none ∧
    ((storedSmoother.reset).smooth [curNose]).1 = [curNose] ∧
    (curNose ∈ ((storedSmoother.reset).smooth [curNose]).1 ∧
      ((storedSmoother.reset).smooth [curNose]).2.previousLandmarks curNose.name =
        some curNose) := by
  obtain ⟨h1, h2, h3⟩ :=
    smooth_first_sighting_and_reset (storedSmoother.reset) [curNose] (by simp)
  exact ⟨(smooth_first_sighting_and_reset storedSmoother [curNose] (by simp)).1 "nose",
    h2, h3 curNose (by simp) rfl⟩

/-- Claim C10: `getSmoother` returns the module-level singleton unchanged
when called with the stored alpha, and replaces it by a freshly constructed
smoother with empty history when the alpha differs; consequently
`applySmoothing` with a changed smoothing factor computes from an empty
history, silently discarding all accumulated per-keypoint state. -/
theorem getSmoother_singleton :
    (∀ (g : GlobalSmootherState) (s : LandmarkSmoother) (alpha : ℚ),
      g.smootherInstance = some s → g.currentAlpha = alpha →
      getSmoother alpha g = (s, g)) ∧
    (∀ (g : GlobalSmootherState) (alpha : ℚ), g.currentAlpha ≠ alpha →
      getSmoother alpha g =
        (LandmarkSmoother.create alpha, ⟨some (LandmarkSmoother.create alpha), alpha⟩) ∧
      ∀ n, (LandmarkSmoother.create alpha).previousLandmarks n = none) ∧
    (∀ (landmarks : List Landmark) (config : PoseConfig) (g : GlobalSmootherState),
      config.enableSmoothing = true → config.smoothingFactor ≠ g.currentAlpha →
      (applySmoothing landmarks config g).1 =
        ((LandmarkSmoother.create config.smoothingFactor).smooth landmarks).1) := by
  refine ⟨?_, ?_, ?_⟩
  · intro g s alpha h1 h2
    simp [getSmoother, h1, h2]
  · intro g alpha hne
    refine ⟨?_, fun n => rfl⟩
    cases hg : g.smootherInstance with
    | none => simp [getSmoother, hg]
    | some inst => simp [getSmoother, hg, hne]
  · intro landmarks config g hsm hne
    cases hg : g.smootherInstance with
    | none => simp [applySmoothing, getSmoother, hsm, hg]
    | some inst => simp [applySmoothing, getSmoother, hsm, hg, Ne.symm hne]

/-- The module state after a first session at the default alpha. -/
def warmGlobalState : GlobalSmootherState :=
  ⟨some storedSmoother, 1/2⟩

theorem getSmoother_singleton_witness :
    getSmoother (1/2) warmGlobalState = (storedSmoother, warmGlobalState) ∧
    getSmoother (3/10) warmGlobalState =
      (LandmarkSmoother.create (3/10), ⟨some (LandmarkSmoother.create (3/10)), 3/10⟩) ∧
    (applySmoothing [curNose]
        { minConfidence := 1/2, targetFPS := 30, enableSmoothing := true,
          smoothingFactor := 3/10 } warmGlobalState).1 =
      ((LandmarkSmoother.create (3/10)).smooth [curNose]).1 := by
  refine ⟨?_, ?_, ?_⟩
  · exact getSmoother_singleton.1 warmGlobalState storedSmoother (1/2) rfl rfl
  · exact (getSmoother_singleton.2.1 warmGlobalState (3/10) (by norm_num [warmGlobalState])).1
  · exact getSmoother_singleton.2.2 [curNose]
      { minConfidence := 1/2, targetFPS := 30, enableSmoothing := true,
        smoothingFactor := 3/10 } warmGlobalState rfl (by norm_num [warmGlobalState])

-- ============================================================================
-- Geometry kernel (C8, C9)
-- ============================================================================

/-- `Math.atan2` never exceeds pi. -/
theorem atan2_le_pi (y x : ℝ) : atan2 y x ≤ Real.pi := Complex.arg_le_pi _

/-- `Math.atan2` stays strictly above minus pi. -/
theorem neg_pi_lt_atan2 (y x : ℝ) : -Real.pi < atan2 y x := Complex.neg_pi_lt_arg _

/-- Claim C8: for any three points the computed angle lies in `[0, 180]`
and is symmetric in the two outer points (proved without any
non-degeneracy assumption: the `atan2` normalization makes even degenerate
inputs well defined). -/
theorem calculateAngle_range_and_symm (p1 p2 p3 : Pt) :
    0 ≤ calculateAngle p1 p2 p3 ∧ calculateAngle p1 p2 p3 ≤ 180 ∧
    calculateAngle p1 p2 p3 = calculateAngle p3 p2 p1 := by
  have hpi := Real.pi_pos
  have hsymm : calculateAngle p1 p2 p3 = calculateAngle p3 p2 p1 := by
    simp only [calculateAngle]
    have habs :
        |(atan2 ((p1.y : ℝ) - (p2.y : ℝ)) ((p1.x : ℝ) - (p2.x : ℝ)) -
          atan2 ((p3.y : ℝ) - (p2.y : ℝ)) ((p3.x : ℝ) - (p2.x : ℝ))) * 180 / Real.pi| =
        |(atan2 ((p3.y : ℝ) - (p2.y : ℝ)) ((p3.x : ℝ) - (p2.x : ℝ)) -
          atan2 ((p1.y : ℝ) - (p2.y : ℝ)) ((p1.x : ℝ) - (p2.x : ℝ))) * 180 / Real.pi| := by
      rw [show (atan2 ((p1.y : ℝ) - (p2.y : ℝ)) ((p1.x : ℝ) - (p2.x : ℝ)) -
          atan2 ((p3.y : ℝ) - (p2.y : ℝ)) ((p3.x : ℝ) - (p2.x : ℝ))) * 180 / Real.pi =
          -((atan2 ((p3.y : ℝ) - (p2.y : ℝ)) ((p3.x : ℝ) - (p2.x : ℝ)) -
          atan2 ((p1.y : ℝ) - (p2.y : ℝ)) ((p1.x : ℝ) - (p2.x : ℝ))) * 180 / Real.pi) from by
        ring]
      rw [abs_neg]
    rw [habs]
  have hbounds : 0 ≤ calculateAngle p1 p2 p3 ∧ calculateAngle p1 p2 p3 ≤ 180 := by
    simp only [calculateAngle, jsRound]
    set a := atan2 ((p3.y : ℝ) - (p2.y : ℝ)) ((p3.x : ℝ) - (p2.x : ℝ)) with ha
    set b := atan2 ((p1.y : ℝ) - (p2.y : ℝ)) ((p1.x : ℝ) - (p2.x : ℝ)) with hb
    have h1 := atan2_le_pi ((p3.y : ℝ) - (p2.y : ℝ)) ((p3.x : ℝ) - (p2.x : ℝ))
    have h2 := neg_pi_lt_atan2 ((p3.y : ℝ) - (p2.y : ℝ)) ((p3.x : ℝ) - (p2.x : ℝ))
    have h3 := atan2_le_pi ((p1.y : ℝ) - (p2.y : ℝ)) ((p1.x : ℝ) - (p2.x : ℝ))
    have h4 := neg_pi_lt_atan2 ((p1.y : ℝ) - (p2.y : ℝ)) ((p1.x : ℝ) - (p2.x : ℝ))
    rw [← ha] at h1 h2
    rw [← hb] at h3 h4
    have hd : |a - b| < 2 * Real.pi := abs_lt.mpr ⟨by linarith, by linarith⟩
    have hA0 : (0:ℝ) ≤ |(a - b) * 180 / Real.pi| := abs_nonneg _
    have hA : |(a - b) * 180 / Real.pi| = |a - b| * (180 / Real.pi) := by
      rw [mul_div_assoc, abs_mul, abs_of_pos (by positivity : (0:ℝ) < 180 / Real.pi)]
    have hub : |(a - b) * 180 / Real.pi| < 360 := by
      rw [hA]
      have hlt : |a - b| * (180 / Real.pi) < (2 * Real.pi) * (180 / Real.pi) :=
        mul_lt_mul_of_pos_right hd (by positivity)
      have heq : (2 * Real.pi) * (180 / Real.pi) = 360 := by
        field_simp
        ring
      linarith
    set A := |(a - b) * 180 / Real.pi| with hAdef
    have hN : 0 ≤ (if 180 < A then 360 - A else A) ∧ (if 180 < A then 360 - A else A) ≤ 180 := by
      by_cases h : 180 < A
      · rw [if_pos h]
        constructor <;> linarith
      · rw [if_neg h]
        exact ⟨hA0, le_of_not_lt h⟩
    constructor
    · have hf : (0:ℤ) ≤ ⌊(if 180 < A then 360 - A else A) + 1/2⌋ :=
        Int.floor_nonneg.mpr (by linarith [hN.1])
      exact_mod_cast hf
    · have hf : ⌊(if 180 < A then 360 - A else A) + 1/2⌋ < 181 :=
        Int.floor_lt.mpr (by push_cast; linarith [hN.2])
      have hf2 : ⌊(if 180 < A then 360 - A else A) + 1/2⌋ ≤ 180 := by omega
      exact_mod_cast hf2
  exact ⟨hbounds.1, hbounds.2, hsymm⟩

/-- Claim C9 (implicit): `calculateAngle` always returns a whole number of
degrees (the rounded angle), and consequently every value stored in the
map built by `calculateJointAngles` is an integer cast to a number. -/
theorem calculateAngle_integral :
    (∀ p1 p2 p3 : Pt, ∃ k : ℤ, calculateAngle p1 p2 p3 = (k : ℝ)) ∧
    (∀ (landmarks : List Landmark) (j : JointKey),
      ∃ o : Option ℤ, calculateJointAngles landmarks j = o.map (fun k => (k : ℝ))) := by
  have hint : ∀ p1 p2 p3 : Pt, ∃ k : ℤ, calculateAngle p1 p2 p3 = (k : ℝ) := by
    intro p1 p2 p3
    simp only [calculateAngle, jsRound]
    exact ⟨_, rfl⟩
  refine ⟨hint, ?_⟩
  intro landmarks j
  cases j with
  | leftElbow =>
    simp only [calculateJointAngles]
    rcases getLandmark landmarks KeypointName.LEFT_SHOULDER with _ | s
    · exact ⟨none, rfl⟩
    rcases getLandmark landmarks KeypointName.LEFT_ELBOW with _ | e
    · exact ⟨none, rfl⟩
    rcases getLandmark landmarks KeypointName.LEFT_WRIST with _ | w
    · exact ⟨none, rfl⟩
    obtain ⟨k, hk⟩ := hint s.pt e.pt w.pt
    exact ⟨some k, by simp [hk]⟩
  | rightElbow =>
    simp only [calculateJointAngles]
    rcases getLandmark landmarks KeypointName.RIGHT_SHOULDER with _ | s
    · exact ⟨none, rfl⟩
    rcases getLandmark landmarks KeypointName.RIGHT_ELBOW with _ | e
    · exact ⟨none, rfl⟩
    rcases getLandmark landmarks KeypointName.RIGHT_WRIST with _ | w
    · exact ⟨none, rfl⟩
    obtain ⟨k, hk⟩ := hint s.pt e.pt w.pt
    exact ⟨some k, by simp [hk]⟩
  | leftShoulder =>
    simp only [calculateJointAngles]
    rcases getLandmark landmarks KeypointName.LEFT_ELBOW with _ | e
    · exact ⟨none, rfl⟩
    rcases getLandmark landmarks KeypointName.LEFT_SHOULDER with _ | s
    · exact ⟨none, rfl⟩
    rcases getLandmark landmarks KeypointName.LEFT_HIP with _ | h
    · exact ⟨none, rfl⟩
    obtain ⟨k, hk⟩ := hint e.pt s.pt h.pt
    exact ⟨some k, by simp [hk]⟩
  | rightShoulder =>
    simp only [calculateJointAngles]
    rcases getLandmark landmarks KeypointName.RIGHT_ELBOW with _ | e
    · exact ⟨none, rfl⟩
    rcases getLandmark landmarks KeypointName.RIGHT_SHOULDER with _ | s
    · exact ⟨none, rfl⟩
    rcases getLandmark landmarks KeypointName.RIGHT_HIP with _ | h
    · exact ⟨none, rfl⟩
    obtain ⟨k, hk⟩ := hint e.pt s.pt h.pt
    exact ⟨some k, by simp [hk]⟩
  | leftKnee =>
    simp only [calculateJointAngles]
    rcases getLandmark landmarks KeypointName.LEFT_HIP with _ | h
    · exact ⟨none, rfl⟩
    rcases getLandmark landmarks KeypointName.LEFT_KNEE with _ | k2
    · exact ⟨none, rfl⟩
    rcases getLandmark landmarks KeypointName.LEFT_ANKLE with _ | a
    · exact ⟨none, rfl⟩
    obtain ⟨k, hk⟩ := hint h.pt k2.pt a.pt
    exact ⟨some k, by simp [hk]⟩
  | rightKnee =>
    simp only [calculateJointAngles]
    rcases getLandmark landmarks KeypointName.RIGHT_HIP with _ | h
    · exact ⟨none, rfl⟩
    rcases getLandmark landmarks KeypointName.RIGHT_KNEE with _ | k2
    · exact ⟨none, rfl⟩
    rcases getLandmark landmarks KeypointName.RIGHT_ANKLE with _ | a
    · exact ⟨none, rfl⟩
    obtain ⟨k, hk⟩ := hint h.pt k2.pt a.pt
    exact ⟨some k, by simp [hk]⟩
  | leftHip =>
    simp only [calculateJointAngles]
    rcases getLandmark landmarks KeypointName.LEFT_SHOULDER with _ | s
    · exact ⟨none, rfl⟩
    rcases getLandmark landmarks KeypointName.LEFT_HIP with _ | h
    · exact ⟨none, rfl⟩
    rcases getLandmark landmarks KeypointName.LEFT_KNEE with _ | k2
    · exact ⟨none, rfl⟩
    obtain ⟨k, hk⟩ := hint s.pt h.pt k2.pt
    exact ⟨some k, by simp [hk]⟩
  | rightHip =>
    simp only [calculateJointAngles]
    rcases getLandmark landmarks KeypointName.RIGHT_SHOULDER with _ | s
    · exact ⟨none, rfl⟩
    rcases getLandmark landmarks KeypointName.RIGHT_HIP with _ | h
    · exact ⟨none, rfl⟩
    rcases getLandmark landmarks KeypointName.RIGHT_KNEE with _ | k2
    · exact ⟨none, rfl⟩
    obtain ⟨k, hk⟩ := hint s.pt h.pt k2.pt
    exact ⟨some k, by simp [hk]⟩
  | spine =>
    simp only [calculateJointAngles]
    rcases getLandmark landmarks KeypointName.LEFT_SHOULDER with _ | ls
    · exact ⟨none, rfl⟩
    rcases getLandmark landmarks KeypointName.RIGHT_SHOULDER with _ | rs
    · exact ⟨none, rfl⟩
    rcases getLandmark landmarks KeypointName.LEFT_HIP with _ | lh
    · exact ⟨none, rfl⟩
    rcases getLandmark landmarks KeypointName.RIGHT_HIP with _ | rh
    · exact ⟨none, rfl⟩
    obtain ⟨k, hk⟩ := hint ⟨(ls.x + rs.x) / 2, 0⟩
      ⟨(ls.x + rs.x) / 2, (ls.y + rs.y) / 2⟩ ⟨(lh.x + rh.x) / 2, (lh.y + rh.y) / 2⟩
    exact ⟨some k, by simp [hk]⟩
  | leftWrist => exact ⟨none, rfl⟩
  | rightWrist => exact ⟨none, rfl⟩
  | leftAnkle => exact ⟨none, rfl⟩
  | rightAnkle => exact ⟨none, rfl⟩
  | neck => exact ⟨none, rfl⟩
  | leftArmpit => exact ⟨none, rfl⟩
  | rightArmpit => exact ⟨none, rfl⟩
